import Mathlib

/-!
Verification development for the `polymer-workspaces` core
(`src/workspace.ts`): a shallow embedding of the workspace
initialization pipeline and its batch-processed verbs, together with
theorems settling the specified properties.

The embedding models the single-threaded cooperative execution of the
source: every external collaborator call (git, npm, GitHub, filesystem,
process execution) is an oracle drawn from an `Env` record, every
computation returns its result in `Except` together with the ordered
trace of collaborator calls it performed, and JavaScript `Map` /
object-property updates are modelled as association-list updates.
-/

set_option autoImplicit false
set_option linter.unusedVariables false

deriving instance DecidableEq for Except

namespace PolymerWorkspace

/-- A thrown JavaScript error: either a `TypeError` raised by the runtime
or an ordinary `Error` with a message. -/
inductive JsError where
  | typeError (message : String)
  | error (message : String)
  deriving DecidableEq, Repr

/-- Message carried by a `JsError`. -/
def JsError.message : JsError → String
  | .typeError m => m
  | .error m => m

/-- Reference to a GitHub repository as produced by pattern expansion
(`GitHubRepoReference` in `src/github.ts`, seen through its use in
`workspace.ts`: only `fullName` is consulted). -/
structure GitHubRepoReference where
  fullName : String
  deriving DecidableEq, Repr

/-- Resolved GitHub repository metadata (`GitHubRepo`), as consumed by
`workspace.ts`: short `name`, `fullName`, `cloneUrl`, `defaultBranch`
and the optional pinned `ref`. -/
structure GitHubRepo where
  name : String
  fullName : String
  cloneUrl : String
  defaultBranch : String
  ref : Option String
  deriving DecidableEq, Repr

/-- A WorkspaceRepo (interface in `workspace.ts`): the local directory
plus the resolved GitHub metadata.  The `git` and `npm` session handles
of the source are keyed by `dir` alone, so they live in the environment
oracle rather than in the record. -/
structure WorkspaceRepo where
  dir : String
  github : GitHubRepo
  deriving DecidableEq, Repr

/-- A merged bower configuration: the `dependencies` object modelled as
an association list in property-insertion order. -/
structure BowerConfig where
  dependencies : List (String × String)
  deriving DecidableEq, Repr

/-- Result of a captured process execution (`ExecResult` in
`util/exec.ts`), as far as `workspace.ts` consumes it. -/
structure ExecResult where
  stdout : String
  stderr : String
  deriving DecidableEq, Repr

/-- One observable collaborator call performed by the workspace code, in
execution order. -/
inductive Event where
  | checkCommand (cmd : String)
  | expandPatterns (patterns : List String)
  | getRepoInfo (fullName : String)
  | log (message : String)
  | rimraf (dir : String)
  | mkdir (dir : String)
  | writeFile (file : String) (content : String)
  | writeBowerJson (file : String) (config : BowerConfig)
  | gitFetch (dir : String)
  | gitDestroy (dir : String)
  | gitClone (dir : String) (url : String)
  | gitCheckout (dir : String) (ref : String)
  | gitGetHeadSha (dir : String)
  | execCommand (dir : String) (cmd : String)
  | gitCreateBranch (dir : String) (branch : String)
  | gitCommit (dir : String) (message : String)
  | gitPush (dir : String)
  | npmPublish (dir : String)
  deriving DecidableEq, Repr

/-- Environment of external collaborators (git/npm sessions keyed by
directory, the GitHub connection, filesystem and process primitives).
These are the out-of-scope interfaces of the spec; each is a fixed
oracle answering by its arguments. -/
structure Env where
  checkCommand : String → Bool
  expandRepoPatterns : List String → List GitHubRepoReference
  getRepoInfo : GitHubRepoReference → Except JsError GitHubRepo
  existsSync : String → Bool
  isGit : String → Bool
  rimraf : String → Except JsError Unit
  mkdir : String → Except JsError Unit
  gitFetch : String → Except JsError Unit
  gitDestroy : String → Except JsError Unit
  gitClone : String → String → Except JsError Unit
  gitCheckout : String → String → Except JsError Unit
  getHeadSha : String → Except JsError String
  bowerInstall : String → Except JsError Unit
  mergedBowerConfigs : List WorkspaceRepo → BowerConfig
  createBranch : String → String → Except JsError ExecResult
  commit : String → String → Except JsError ExecResult
  push : String → Option String → Bool → Except JsError ExecResult
  publish : String → String → Except JsError ExecResult

/-- A computation of the workspace code: the ordered trace of
collaborator calls it performed, and its outcome (a value, or the
thrown `JsError`). -/
def M (α : Type) : Type := List Event × Except JsError α

/-- Computation returning `a` with no collaborator calls. -/
def pureM {α : Type} (a : α) : M α := ([], .ok a)

/-- Sequencing of computations: a thrown error short-circuits, traces
concatenate in execution order. -/
def andThen {α β : Type} (x : M α) (f : α → M β) : M β :=
  match x.2 with
  | .error e => (x.1, .error e)
  | .ok a => (x.1 ++ (f a).1, (f a).2)

@[simp] theorem andThen_ok {α β : Type} (tr : List Event) (a : α) (f : α → M β) :
    andThen (tr, .ok a) f = (tr ++ (f a).1, (f a).2) := rfl

@[simp] theorem andThen_error {α β : Type} (tr : List Event) (e : JsError) (f : α → M β) :
    andThen (tr, .error e) f = (tr, .error e) := rfl

@[simp] theorem andThen_pureM {α β : Type} (a : α) (f : α → M β) :
    andThen (pureM a) f = f a := by
  simp [pureM, andThen]

/-! ### Batch processing

The concurrency-limited executor lives in `util/batch-process.ts`,
which is not part of the inspected sources; it is modelled from the
spec's BatchExecutor contract.  In the spec's single-threaded
cooperative scheduling model each item's operation is deterministic, so
every admissible schedule produces the same per-item outcomes; the
model runs the items in input order, which is the concurrency-1
schedule and outcome-equivalent to every other. -/

/-- Response of a batch run (`BatchProcessResponse`): the map of
succeeded items to results and the map of failed items to their
captured errors, each in completion order. -/
structure BatchProcessResponse (T R : Type) where
  successes : List (T × R)
  failures : List (T × JsError)
  deriving DecidableEq, Repr

/-- Modelled from the spec: per-item outcomes of the BatchExecutor of
`util/batch-process.ts` (not under `src/`).  Each item's operation is
awaited independently; a failure is caught and recorded for that item
alone and no item's failure cancels, skips or delays another item. -/
def batchOutcome {T R : Type} (op : T → M R) : List T → BatchProcessResponse T R
  | [] => ⟨[], []⟩
  | t :: ts =>
    let rest := batchOutcome op ts
    match (op t).2 with
    | .ok v => ⟨(t, v) :: rest.successes, rest.failures⟩
    | .error e => ⟨rest.successes, (t, e) :: rest.failures⟩

/-- Modelled from the spec: collaborator calls performed by a batch run,
item by item. -/
def batchTrace {T R : Type} (op : T → M R) (items : List T) : List Event :=
  (items.map fun t => (op t).1).flatten

/-- Modelled from the spec: `batchProcess(items, op, {concurrency})` of
`util/batch-process.ts` (not under `src/`).  The call itself never
throws for a single item's failure; it resolves once every item has
produced exactly one outcome.  Outcomes are schedule-independent for
deterministic operations, so the `concurrency` ceiling does not affect
the returned partition. -/
def batchProcess {T R : Type} (items : List T) (op : T → M R)
    (concurrency : Nat) : M (BatchProcessResponse T R) :=
  (batchTrace op items, .ok (batchOutcome op items))

/-- Modelled from the spec: the filesystem-bound concurrency preset of
`util/batch-process.ts` (not under `src/`); its exact value is
immaterial to the per-item outcomes. -/
def fsConcurrencyPreset : Nat := 10

/-- Modelled from the spec: the network-bound GitHub concurrency preset
of `util/batch-process.ts` (not under `src/`). -/
def githubConcurrencyPreset : Nat := 10

/-- Modelled from the spec: the npm-publish concurrency preset of
`util/batch-process.ts` (not under `src/`). -/
def npmPublishConcurrencyPreset : Nat := 2

@[simp] theorem batchOutcome_nil {T R : Type} (op : T → M R) :
    batchOutcome op [] = ⟨[], []⟩ := rfl

/-- Successes of a batch run are exactly the items whose operation
succeeded, in order, paired with their results. -/
theorem batchOutcome_successes {T R : Type} (op : T → M R) (items : List T) :
    (batchOutcome op items).successes
      = items.filterMap fun t => ((op t).2.toOption).map fun v => (t, v) := by
  induction items with
  | nil => rfl
  | cons t ts ih =>
    cases h : (op t).2 <;>
      simp [batchOutcome, h, ih, Except.toOption]

/-- Failures of a batch run are exactly the items whose operation threw,
in order, paired with the captured error. -/
theorem batchOutcome_failures {T R : Type} (op : T → M R) (items : List T) :
    (batchOutcome op items).failures
      = items.filterMap fun t =>
          match (op t).2 with
          | .ok _ => none
          | .error e => some (t, e) := by
  induction items with
  | nil => rfl
  | cons t ts ih =>
    cases h : (op t).2 <;>
      simp [batchOutcome, h, ih]

/-! ### Failure ledger

The source accumulates failures in a JavaScript `Map<WorkspaceRepo,
Error>`; modelled as an association list in insertion order with
`Map.prototype.set` update semantics. -/

/-- Ledger from eliminated `WorkspaceRepo` to the error that eliminated
it. -/
abbrev Ledger : Type := List (WorkspaceRepo × JsError)

/-- Keys of a ledger, in insertion order. -/
def ledgerKeys (m : Ledger) : List WorkspaceRepo := m.map Prod.fst

/-- JavaScript `Map.prototype.set`: replace the value in place when the
key is present, otherwise append the new entry. -/
def mapSet (m : Ledger) (k : WorkspaceRepo) (v : JsError) : Ledger :=
  if k ∈ ledgerKeys m then
    m.map fun p => if p.1 = k then (k, v) else p
  else m ++ [(k, v)]

/-- Embedding of `collectFailures` (workspace.ts:30): copy every entry
of `failures` into `collection` with `Map.set` semantics. -/
def collectFailures (collection : Ledger) (failures : List (WorkspaceRepo × JsError)) :
    Ledger :=
  failures.foldl (fun c p => mapSet c p.1 p.2) collection

/-! ### Workspace state and repository resolution -/

/-- Fields of the `Workspace` class that the embedded methods read or
write: the root directory and the `_initializedRepos` optional field
(the GitHub token only parameterizes the connection oracle in `Env`). -/
structure WorkspaceState where
  dir : String
  initializedRepos : Option (List WorkspaceRepo)
  deriving DecidableEq, Repr

/-- Embedding of the `Workspace` constructor (workspace.ts:72): stores
the directory; `_initializedRepos` starts unset. -/
def Workspace.construct (dir : String) : WorkspaceState :=
  { dir := dir, initializedRepos := none }

/-- Embedding of the `isInitialized` getter (workspace.ts:80):
`!!this._initializedRepos`. -/
def isInitialized (s : WorkspaceState) : Bool :=
  s.initializedRepos.isSome

/-- Error thrown by `assertInitialized` (workspace.ts:90). -/
def notInitializedError : JsError :=
  .error "Workspace has not been initialized, run init() first."

/-- Embedding of `excludes.map(String.prototype.toLowerCase)`
(workspace.ts:101) with JavaScript runtime semantics:
`Array.prototype.map` invokes its callback with `this` bound to
`undefined`, and `String.prototype.toLowerCase` begins with
`RequireObjectCoercible(this value)`, which throws a `TypeError` for an
`undefined` receiver.  The callback is only invoked when the array is
non-empty, so an empty excludes list maps to an empty list and any
non-empty excludes list throws on its first element. -/
def mapProtoToLowerCase : List String → Except JsError (List String)
  | [] => .ok []
  | _ :: _ =>
    .error (.typeError "String.prototype.toLowerCase called on null or undefined")

/-- Embedding of `_determineGitHubRepos` (workspace.ts:99): lower-case
the excludes (see `mapProtoToLowerCase`), expand the include patterns,
filter out references whose lower-cased full name is in the excludes,
fetch metadata per reference catching individual failures, then drop
(and log) the failed fetches, returning the successfully fetched
metadata in order. -/
def determineGitHubRepos (env : Env) (repoPatterns : List String)
    (excludes : List String) : M (List GitHubRepo) :=
  match mapProtoToLowerCase excludes with
  | .error e => ([], .error e)
  | .ok excludesLower =>
    let repoRefs :=
      (env.expandRepoPatterns repoPatterns).filter fun r =>
        !(excludesLower.contains r.fullName.toLower)
    (Event.expandPatterns repoPatterns
        :: (repoRefs.map fun r => Event.getRepoInfo r.fullName)
        ++ repoRefs.filterMap fun r =>
            match env.getRepoInfo r with
            | .ok _ => none
            | .error e =>
              some (.log ("Repo not found: " ++ r.fullName ++ " ("
                ++ e.message ++ ")")),
      .ok (repoRefs.filterMap fun r => (env.getRepoInfo r).toOption))

/-- Embedding of `_openWorkspaceRepo` (workspace.ts:132): the session
directory is the repo's short name resolved against the workspace
directory; the git and npm sessions it opens are keyed by that
directory in `Env`. -/
def openWorkspaceRepo (dir : String) (repo : GitHubRepo) : WorkspaceRepo :=
  { dir := dir ++ "/" ++ repo.name, github := repo }

/-! ### Phase 3: prepare workspace folders -/

/-- Verbose-gated `console.log` call. -/
def verboseLog (verbose : Bool) (message : String) : M Unit :=
  (if verbose then [.log message] else [], .ok ())

/-- Options accepted by `init` (`WorkspaceInitOptions`); the source's
optional booleans are modelled with `false` for absent. -/
structure WorkspaceInitOptions where
  fresh : Bool
  verbose : Bool
  deriving DecidableEq, Repr

/-- Per-repo cleanup operation of `_prepareWorkspaceFolders`
(workspace.ts:169): when the repo folder exists but is not a valid git
session, remove it. -/
def prepareRepoOp (env : Env) (options : WorkspaceInitOptions)
    (repo : WorkspaceRepo) : M Unit :=
  if env.existsSync repo.dir && !(env.isGit repo.dir) then
    andThen (verboseLog options.verbose
        ("Removing existing folder: " ++ repo.dir ++ "...")) fun _ =>
      ([.rimraf repo.dir], env.rimraf repo.dir)
  else pureM ()

/-- Embedding of `_prepareWorkspaceFolders` (workspace.ts:146): wipe the
workspace root when `fresh`, ensure the root exists, then batch-process
the per-repo cleanup. -/
def prepareWorkspaceFolders (env : Env) (dir : String)
    (repos : List WorkspaceRepo) (options : WorkspaceInitOptions) :
    M (BatchProcessResponse WorkspaceRepo Unit) :=
  andThen
    (if options.fresh then
      andThen (verboseLog options.verbose
          ("Removing workspace folder " ++ dir ++ "...")) fun _ =>
        ([.rimraf dir], env.rimraf dir)
    else pureM ()) fun _ =>
  andThen
    (if !(env.existsSync dir) then
      andThen (verboseLog options.verbose
          ("Creating workspace folder " ++ dir ++ "...")) fun _ =>
        ([.mkdir dir], env.mkdir dir)
    else pureM ()) fun _ =>
  batchProcess repos (prepareRepoOp env options) fsConcurrencyPreset

/-! ### Phase 4: clone or update -/

/-- JavaScript `a || b` on an optional string: an absent or empty pinned
ref falls back to the default branch. -/
def jsOrElse (ref : Option String) (dflt : String) : String :=
  match ref with
  | some s => if s = "" then dflt else s
  | none => dflt

/-- Per-repo operation of `_cloneOrUpdateWorkspaceRepos`
(workspace.ts:185): fetch and hard-reset an existing git session or
clone afresh, then check out the pinned ref or default branch. -/
def cloneOrUpdateOp (env : Env) (repo : WorkspaceRepo) : M Unit :=
  andThen
    (if env.isGit repo.dir then
      andThen ([.gitFetch repo.dir], env.gitFetch repo.dir) fun _ =>
        ([.gitDestroy repo.dir], env.gitDestroy repo.dir)
    else
      ([.gitClone repo.dir repo.github.cloneUrl],
        env.gitClone repo.dir repo.github.cloneUrl)) fun _ =>
  ([.gitCheckout repo.dir (jsOrElse repo.github.ref repo.github.defaultBranch)],
    env.gitCheckout repo.dir (jsOrElse repo.github.ref repo.github.defaultBranch))

/-- Embedding of `_cloneOrUpdateWorkspaceRepos` (workspace.ts:184). -/
def cloneOrUpdateWorkspaceRepos (env : Env) (repos : List WorkspaceRepo) :
    M (BatchProcessResponse WorkspaceRepo Unit) :=
  batchProcess repos (cloneOrUpdateOp env) fsConcurrencyPreset

/-! ### Phase 5: configure the bower workspace -/

/-- Content written to `.bowerrc` (workspace.ts:203). -/
def bowerrcContent : String := "\x7b\"directory\": \".\"\x7d"

/-- JavaScript object property assignment
`bowerConfig.dependencies[name] = value`: overwrite in place when the
property exists, otherwise append. -/
def objSet (deps : List (String × String)) (k v : String) :
    List (String × String) :=
  if k ∈ deps.map Prod.fst then
    deps.map fun p => if p.1 = k then (k, v) else p
  else deps ++ [(k, v)]

/-- Per-repo body of the `_configureBowerWorkspace` batch
(workspace.ts:207), threading the shared merged config: read the repo's
head commit and pin the config's entry for the repo's package name to
`./<name>#<sha>`.  The shared-map assignment is a single uninterruptible
step in the source's cooperative scheduling, so the sequential
input-order schedule modelled here produces the outcome of every
admissible schedule. -/
def configureOutcome (env : Env) :
    List WorkspaceRepo → BowerConfig →
      BowerConfig × BatchProcessResponse WorkspaceRepo Unit
  | [], cfg => (cfg, ⟨[], []⟩)
  | r :: rs, cfg =>
    match env.getHeadSha r.dir with
    | .ok sha =>
      let cfg1 : BowerConfig :=
        ⟨objSet cfg.dependencies r.github.name
          ("./" ++ r.github.name ++ "#" ++ sha)⟩
      let rest := configureOutcome env rs cfg1
      (rest.1, ⟨(r, ()) :: rest.2.successes, rest.2.failures⟩)
    | .error e =>
      let rest := configureOutcome env rs cfg
      (rest.1, ⟨rest.2.successes, (r, e) :: rest.2.failures⟩)

/-- Embedding of `_configureBowerWorkspace` (workspace.ts:202): write
`.bowerrc`, merge the surviving repos' bower configs, run the per-repo
pinning batch over the shared merged config, and only then persist the
final merged config to `bower.json`. -/
def configureBowerWorkspace (env : Env) (dir : String)
    (repos : List WorkspaceRepo) : M (BatchProcessResponse WorkspaceRepo Unit) :=
  let outcome := configureOutcome env repos (env.mergedBowerConfigs repos)
  (Event.writeFile (dir ++ "/.bowerrc") bowerrcContent
      :: (repos.map fun r => Event.gitGetHeadSha r.dir)
      ++ [Event.writeBowerJson (dir ++ "/bower.json") outcome.1],
    .ok outcome.2)

/-! ### Phase 6 and validation -/

/-- Embedding of `_installWorkspaceDependencies` (workspace.ts:224):
run `bower install -F` over the workspace root; a failure propagates. -/
def installWorkspaceDependencies (env : Env) (dir : String) : M Unit :=
  ([.execCommand dir "bower install -F"], env.bowerInstall dir)

/-- Environment command check of `_initValidate`: probe for `cmd` and
throw `msg` when it is missing. -/
def checkCommandM (env : Env) (cmd msg : String) : M Unit :=
  ([.checkCommand cmd],
    if env.checkCommand cmd then .ok () else .error (.error msg))

/-- Embedding of `_initValidate` (workspace.ts:231): reject a second
initialization before any collaborator call, then require the `git`,
`bower` and `npm` commands. -/
def initValidate (env : Env) (s : WorkspaceState) : M Unit :=
  if isInitialized s then
    ([], .error (.error "Workspace has already been initialized."))
  else
    andThen (checkCommandM env "git"
      "polymer-workspace: global \"git\" command not found. Install git on your machine and then retry.") fun _ =>
    andThen (checkCommandM env "bower"
      "polymer-workspace: global \"bower\" command not found. Install bower on your machine and then retry.") fun _ =>
    checkCommandM env "npm"
      "polymer-workspace: global \"npm\" command not found. Install npm on your machine and then retry."

/-! ### init -/

/-- Include/exclude pattern arguments of `init` (the source's
`patterns` object; `include` is a Lean keyword, hence the field
names). -/
structure Patterns where
  includePatterns : List String
  excludePatterns : List String
  deriving DecidableEq, Repr

/-- Value returned by a successful `init`: the final working set and
the per-repo failure ledger. -/
structure InitOutput where
  workspaceRepos : List WorkspaceRepo
  failures : Ledger
  deriving DecidableEq, Repr

/-- Pipeline body of `init` (workspace.ts:253) up to and including the
bower configuration phase: validate, resolve the repos, open a
`WorkspaceRepo` per resolved repo, prepare folders (the batch response
of that phase is discarded, exactly as in the source), clone or update
narrowing the working set and collecting failures, then configure bower
narrowing and collecting again. -/
def initPreInstall (env : Env) (s : WorkspaceState) (patterns : Patterns)
    (options : WorkspaceInitOptions) : M (List WorkspaceRepo × Ledger) :=
  andThen (initValidate env s) fun _ =>
  andThen (determineGitHubRepos env patterns.includePatterns
      patterns.excludePatterns) fun githubRepos =>
  let workspaceRepos := githubRepos.map (openWorkspaceRepo s.dir)
  andThen (prepareWorkspaceFolders env s.dir workspaceRepos options) fun _ =>
  andThen (cloneOrUpdateWorkspaceRepos env workspaceRepos) fun repoUpdateResults =>
  let failed1 := collectFailures [] repoUpdateResults.failures
  let workspaceRepos1 := repoUpdateResults.successes.map Prod.fst
  andThen (configureBowerWorkspace env s.dir workspaceRepos1) fun bowerConfigureResults =>
  let failed2 := collectFailures failed1 bowerConfigureResults.failures
  let workspaceRepos2 := bowerConfigureResults.successes.map Prod.fst
  pureM (workspaceRepos2, failed2)

/-- Computation performed by `init` (workspace.ts:253): the pre-install
pipeline followed by the workspace-wide dependency installation. -/
def initBody (env : Env) (s : WorkspaceState) (patterns : Patterns)
    (options : WorkspaceInitOptions) : M (List WorkspaceRepo × Ledger) :=
  andThen (initPreInstall env s patterns options) fun out =>
    andThen (installWorkspaceDependencies env s.dir) fun _ => pureM out

/-- Embedding of `init` (workspace.ts:253): run `initBody`, and only on
full success perform the assignment
`this._initializedRepos = workspaceRepos`.  The returned triple is the
post-call state, the collaborator trace, and the outcome. -/
def init (env : Env) (s : WorkspaceState) (patterns : Patterns)
    (options : WorkspaceInitOptions) :
    WorkspaceState × List Event × Except JsError InitOutput :=
  match (initBody env s patterns options).2 with
  | .ok (ws, ledger) =>
    ({ s with initializedRepos := some ws },
      (initBody env s patterns options).1, .ok ⟨ws, ledger⟩)
  | .error e => (s, (initBody env s patterns options).1, .error e)

/-! ### Post-init verbs (workspace.ts:295-348)

Each verb asserts initialization first and then runs one batch; none of
them assigns to any field of the workspace, so each returns the state
unchanged. -/

/-- Embedding of `run` (workspace.ts:295). -/
def Workspace.run (env : Env) (s : WorkspaceState)
    (workspaceRepos : List WorkspaceRepo) (fn : WorkspaceRepo → M Unit)
    (concurrency : Nat) :
    WorkspaceState × List Event ×
      Except JsError (BatchProcessResponse WorkspaceRepo Unit) :=
  if isInitialized s then
    let r := batchProcess workspaceRepos fn concurrency
    (s, r.1, r.2)
  else (s, [], .error notInitializedError)

/-- Embedding of `startNewBranch` (workspace.ts:306). -/
def startNewBranch (env : Env) (s : WorkspaceState)
    (workspaceRepos : List WorkspaceRepo) (newBranch : String) :
    WorkspaceState × List Event ×
      Except JsError (BatchProcessResponse WorkspaceRepo ExecResult) :=
  if isInitialized s then
    let r := batchProcess workspaceRepos
      (fun repo => ([.gitCreateBranch repo.dir newBranch],
        env.createBranch repo.dir newBranch)) fsConcurrencyPreset
    (s, r.1, r.2)
  else (s, [], .error notInitializedError)

/-- Embedding of `commitChanges` (workspace.ts:317). -/
def commitChanges (env : Env) (s : WorkspaceState)
    (workspaceRepos : List WorkspaceRepo) (message : String) :
    WorkspaceState × List Event ×
      Except JsError (BatchProcessResponse WorkspaceRepo ExecResult) :=
  if isInitialized s then
    let r := batchProcess workspaceRepos
      (fun repo => ([.gitCommit repo.dir message],
        env.commit repo.dir message)) fsConcurrencyPreset
    (s, r.1, r.2)
  else (s, [], .error notInitializedError)

/-- Embedding of `pushChangesToGithub` (workspace.ts:328). -/
def pushChangesToGithub (env : Env) (s : WorkspaceState)
    (workspaceRepos : List WorkspaceRepo) (pushToBranch : Option String)
    (forcePush : Bool) :
    WorkspaceState × List Event ×
      Except JsError (BatchProcessResponse WorkspaceRepo ExecResult) :=
  if isInitialized s then
    let r := batchProcess workspaceRepos
      (fun repo => ([.gitPush repo.dir],
        env.push repo.dir pushToBranch forcePush)) githubConcurrencyPreset
    (s, r.1, r.2)
  else (s, [], .error notInitializedError)

/-- Embedding of `publishPackagesToNpm` (workspace.ts:341). -/
def publishPackagesToNpm (env : Env) (s : WorkspaceState)
    (workspaceRepos : List WorkspaceRepo) (distTag : String) :
    WorkspaceState × List Event ×
      Except JsError (BatchProcessResponse WorkspaceRepo ExecResult) :=
  if isInitialized s then
    let r := batchProcess workspaceRepos
      (fun repo => ([.npmPublish repo.dir],
        env.publish repo.dir distTag)) npmPublishConcurrencyPreset
    (s, r.1, r.2)
  else (s, [], .error notInitializedError)

/-! ### Generic lemmas about batch partitions -/

/-- Error component of an `Except`, when present. -/
def errOption {ε α : Type} : Except ε α → Option ε
  | .ok _ => none
  | .error e => some e

/-- Failures of a batch run, in tagged `filterMap` form. -/
theorem batchOutcome_failures_tag {T R : Type} (op : T → M R) (items : List T) :
    (batchOutcome op items).failures
      = items.filterMap fun t => (errOption (op t).2).map fun e => (t, e) := by
  rw [batchOutcome_failures]
  refine List.filterMap_congr fun t ht => ?_
  cases (op t).2 <;> rfl

/-- Keys of a tagged `filterMap` form a sublist of the input items. -/
theorem filterMap_tag_keys_sublist {T V : Type} (g : T → Option V) (items : List T) :
    ((items.filterMap fun t => (g t).map fun v => (t, v)).map Prod.fst).Sublist items := by
  induction items with
  | nil => simp
  | cons t ts ih =>
    cases h : g t with
    | none => simpa [List.filterMap_cons, h] using ih.cons t
    | some v => simpa [List.filterMap_cons, h] using ih.cons₂ t

/-- Membership in a tagged `filterMap`. -/
theorem mem_filterMap_tag {T V : Type} (g : T → Option V) (items : List T)
    (t : T) (v : V) :
    (t, v) ∈ (items.filterMap fun t' => (g t').map fun w => (t', w))
      ↔ t ∈ items ∧ g t = some v := by
  simp only [List.mem_filterMap, Option.map_eq_some', Prod.mk.injEq]
  constructor
  · rintro ⟨a, ha, w, hw, rfl, rfl⟩
    exact ⟨ha, hw⟩
  · rintro ⟨ht, hv⟩
    exact ⟨t, ht, v, hv, rfl, rfl⟩

/-- Key membership in a tagged `filterMap`. -/
theorem mem_filterMap_tag_keys {T V : Type} (g : T → Option V) (items : List T)
    (t : T) :
    t ∈ (items.filterMap fun t' => (g t').map fun w => (t', w)).map Prod.fst
      ↔ t ∈ items ∧ ∃ v, g t = some v := by
  constructor
  · intro h
    obtain ⟨⟨t', w⟩, hmem, rfl⟩ := List.mem_map.1 h
    obtain ⟨ht, hw⟩ := (mem_filterMap_tag g items t' w).1 hmem
    exact ⟨ht, w, hw⟩
  · rintro ⟨ht, v, hv⟩
    exact List.mem_map.2 ⟨(t, v), (mem_filterMap_tag g items t v).2 ⟨ht, hv⟩, rfl⟩

/-- Success keys and failure keys of one batch run together form a
permutation of the input items. -/
theorem batch_keys_perm {T R : Type} (op : T → M R) (items : List T) :
    ((batchOutcome op items).successes.map Prod.fst
        ++ (batchOutcome op items).failures.map Prod.fst).Perm items := by
  induction items with
  | nil => simp
  | cons t ts ih =>
    cases h : (op t).2 with
    | ok v =>
      simpa [batchOutcome, h] using ih.cons t
    | error e =>
      simp only [batchOutcome, h]
      exact (List.perm_middle.trans (ih.cons t))

/-- An item is a success key exactly when it is an input whose operation
succeeded. -/
theorem mem_batch_successes_keys {T R : Type} (op : T → M R) (items : List T)
    (t : T) :
    t ∈ (batchOutcome op items).successes.map Prod.fst
      ↔ t ∈ items ∧ ∃ v, (op t).2 = .ok v := by
  rw [batchOutcome_successes]
  rw [mem_filterMap_tag_keys]
  constructor
  · rintro ⟨ht, v, hv⟩
    cases h : (op t).2 with
    | ok w => exact ⟨ht, w, rfl⟩
    | error e => simp [Except.toOption, h] at hv
  · rintro ⟨ht, v, hv⟩
    exact ⟨ht, v, by simp [Except.toOption, hv]⟩

/-- An entry is a batch failure exactly when its item is an input whose
operation threw that error. -/
theorem mem_batch_failures {T R : Type} (op : T → M R) (items : List T)
    (t : T) (e : JsError) :
    (t, e) ∈ (batchOutcome op items).failures
      ↔ t ∈ items ∧ (op t).2 = .error e := by
  rw [batchOutcome_failures_tag, mem_filterMap_tag]
  constructor
  · rintro ⟨ht, hv⟩
    cases h : (op t).2 with
    | ok w => simp [errOption, h] at hv
    | error e' =>
      simp [errOption, h] at hv
      exact ⟨ht, by rw [hv]⟩
  · rintro ⟨ht, hv⟩
    exact ⟨ht, by simp [errOption, hv]⟩

/-- An item is a failure key exactly when it is an input whose operation
threw. -/
theorem mem_batch_failures_keys {T R : Type} (op : T → M R) (items : List T)
    (t : T) :
    t ∈ (batchOutcome op items).failures.map Prod.fst
      ↔ t ∈ items ∧ ∃ e, (op t).2 = .error e := by
  rw [batchOutcome_failures_tag, mem_filterMap_tag_keys]
  constructor
  · rintro ⟨ht, e, he⟩
    cases h : (op t).2 with
    | ok w => simp [errOption, h] at he
    | error e' => exact ⟨ht, e', rfl⟩
  · rintro ⟨ht, e, he⟩
    exact ⟨ht, e, by simp [errOption, he]⟩

/-- Success keys form a sublist (no reordering, no duplication) of the
input items. -/
theorem batch_successes_keys_sublist {T R : Type} (op : T → M R) (items : List T) :
    ((batchOutcome op items).successes.map Prod.fst).Sublist items := by
  rw [batchOutcome_successes]
  exact filterMap_tag_keys_sublist _ items

/-- Failure keys form a sublist of the input items. -/
theorem batch_failures_keys_sublist {T R : Type} (op : T → M R) (items : List T) :
    ((batchOutcome op items).failures.map Prod.fst).Sublist items := by
  rw [batchOutcome_failures_tag]
  exact filterMap_tag_keys_sublist _ items

/-- No item is both a success key and a failure key of the same batch
run. -/
theorem batch_keys_disjoint {T R : Type} (op : T → M R) (items : List T)
    (t : T) (hs : t ∈ (batchOutcome op items).successes.map Prod.fst) :
    t ∉ (batchOutcome op items).failures.map Prod.fst := by
  intro hf
  obtain ⟨-, v, hv⟩ := (mem_batch_successes_keys op items t).1 hs
  obtain ⟨-, e, he⟩ := (mem_batch_failures_keys op items t).1 hf
  rw [hv] at he
  cases he

/-! ### Ledger lemmas -/

/-- Replacing a value in place leaves the key sequence unchanged. -/
theorem ledgerKeys_replace (m : Ledger) (k : WorkspaceRepo) (v : JsError) :
    ledgerKeys (m.map fun p => if p.1 = k then (k, v) else p) = ledgerKeys m := by
  unfold ledgerKeys
  rw [List.map_map]
  refine List.map_congr_left fun p hp => ?_
  by_cases h : p.1 = k <;> simp [h]

/-- Key sequence after a `Map.set`. -/
theorem ledgerKeys_mapSet (m : Ledger) (k : WorkspaceRepo) (v : JsError) :
    ledgerKeys (mapSet m k v)
      = if k ∈ ledgerKeys m then ledgerKeys m else ledgerKeys m ++ [k] := by
  unfold mapSet
  by_cases h : k ∈ ledgerKeys m
  · simp [h, ledgerKeys_replace]
  · simp only [h, if_false]
    simp [ledgerKeys]

/-- Key membership after a `Map.set`. -/
theorem mem_ledgerKeys_mapSet (m : Ledger) (k k' : WorkspaceRepo) (v : JsError) :
    k' ∈ ledgerKeys (mapSet m k v) ↔ k' ∈ ledgerKeys m ∨ k' = k := by
  rw [ledgerKeys_mapSet]
  by_cases h : k ∈ ledgerKeys m
  · simp only [h, if_true]
    constructor
    · exact Or.inl
    · rintro (hk | rfl)
      · exact hk
      · exact h
  · simp [h]

/-- A `Map.set` with a fresh key appends the entry. -/
theorem mapSet_of_not_mem (m : Ledger) (k : WorkspaceRepo) (v : JsError)
    (h : k ∉ ledgerKeys m) : mapSet m k v = m ++ [(k, v)] := by
  unfold mapSet
  simp [h]

/-- A `Map.set` preserves key uniqueness. -/
theorem ledgerKeys_mapSet_nodup (m : Ledger) (k : WorkspaceRepo) (v : JsError)
    (h : (ledgerKeys m).Nodup) : (ledgerKeys (mapSet m k v)).Nodup := by
  rw [ledgerKeys_mapSet]
  by_cases hk : k ∈ ledgerKeys m
  · simpa [hk] using h
  · simp only [hk, if_false]
    exact List.Nodup.append h (List.nodup_singleton k)
      (by simpa [List.disjoint_singleton] using hk)

/-- Key membership after collecting a batch of failures. -/
theorem mem_ledgerKeys_collectFailures (c : Ledger)
    (f : List (WorkspaceRepo × JsError)) (k : WorkspaceRepo) :
    k ∈ ledgerKeys (collectFailures c f)
      ↔ k ∈ ledgerKeys c ∨ k ∈ f.map Prod.fst := by
  induction f generalizing c with
  | nil => simp [collectFailures]
  | cons p ps ih =>
    show k ∈ ledgerKeys (collectFailures (mapSet c p.1 p.2) ps) ↔ _
    rw [ih, mem_ledgerKeys_mapSet]
    simp only [List.map_cons, List.mem_cons]
    tauto

/-- Collecting failures preserves key uniqueness. -/
theorem collectFailures_keys_nodup (c : Ledger)
    (f : List (WorkspaceRepo × JsError)) (h : (ledgerKeys c).Nodup) :
    (ledgerKeys (collectFailures c f)).Nodup := by
  induction f generalizing c with
  | nil => exact h
  | cons p ps ih =>
    exact ih (mapSet c p.1 p.2) (ledgerKeys_mapSet_nodup c p.1 p.2 h)

/-- Collecting failures whose keys are fresh and pairwise distinct is an
append. -/
theorem collectFailures_disjoint (c : Ledger) (f : List (WorkspaceRepo × JsError))
    (hdisj : ∀ k ∈ f.map Prod.fst, k ∉ ledgerKeys c)
    (hnodup : (f.map Prod.fst).Nodup) :
    collectFailures c f = c ++ f := by
  induction f generalizing c with
  | nil => simp [collectFailures]
  | cons p ps ih =>
    have hfresh : p.1 ∉ ledgerKeys c := hdisj p.1 (by simp)
    show collectFailures (mapSet c p.1 p.2) ps = c ++ p :: ps
    rw [mapSet_of_not_mem c p.1 p.2 hfresh]
    rw [ih (c ++ [(p.1, p.2)])]
    · simp
    · intro k hk
      have hne : k ≠ p.1 := by
        rintro rfl
        simp only [List.map_cons, List.nodup_cons] at hnodup
        exact hnodup.1 hk
      have : k ∉ ledgerKeys c := hdisj k (by simp [hk])
      simp only [ledgerKeys, List.map_append, List.mem_append]
      rintro (h | h)
      · exact this h
      · simp at h
        exact hne h
    · simp only [List.map_cons, List.nodup_cons] at hnodup
      exact hnodup.2

/-! ### Configure-phase lemmas -/

/-- The batch partition produced by the configure fold does not depend
on the shared config being threaded. -/
theorem configureOutcome_snd_congr (env : Env) (rs : List WorkspaceRepo)
    (cfg cfg' : BowerConfig) :
    (configureOutcome env rs cfg).2 = (configureOutcome env rs cfg').2 := by
  induction rs generalizing cfg cfg' with
  | nil => rfl
  | cons r rs ih =>
    cases h : env.getHeadSha r.dir with
    | ok sha => simp only [configureOutcome, h]; rw [ih]
    | error e => simp only [configureOutcome, h]; rw [ih cfg cfg']

/-- Successes of the configure fold, in tagged `filterMap` form. -/
theorem configureOutcome_successes (env : Env) (rs : List WorkspaceRepo)
    (cfg : BowerConfig) :
    (configureOutcome env rs cfg).2.successes
      = rs.filterMap fun r =>
          ((env.getHeadSha r.dir).toOption).map fun _ => (r, ()) := by
  induction rs generalizing cfg with
  | nil => rfl
  | cons r rs ih =>
    cases h : env.getHeadSha r.dir with
    | ok sha => simp [configureOutcome, h, Except.toOption, ih]
    | error e => simp [configureOutcome, h, Except.toOption, ih cfg]

/-- Failures of the configure fold, in tagged `filterMap` form. -/
theorem configureOutcome_failures (env : Env) (rs : List WorkspaceRepo)
    (cfg : BowerConfig) :
    (configureOutcome env rs cfg).2.failures
      = rs.filterMap fun r =>
          (errOption (env.getHeadSha r.dir)).map fun e => (r, e) := by
  induction rs generalizing cfg with
  | nil => rfl
  | cons r rs ih =>
    cases h : env.getHeadSha r.dir with
    | ok sha => simp [configureOutcome, h, errOption, ih]
    | error e => simp [configureOutcome, h, errOption, ih cfg]

/-- JavaScript object property read `deps[k]`: the value at key `k`,
when present. -/
def objGet (deps : List (String × String)) (k : String) : Option String :=
  match deps with
  | [] => none
  | p :: ps => if p.1 = k then some p.2 else objGet ps k

/-- Replacing a key's value in place makes its read yield the new
value. -/
theorem objGet_replace_self (deps : List (String × String)) (k v : String) :
    k ∈ deps.map Prod.fst →
      objGet (deps.map fun p => if p.1 = k then (k, v) else p) k = some v := by
  induction deps with
  | nil => simp
  | cons p ps ih =>
    intro h
    by_cases hp : p.1 = k
    · simp [objGet, hp]
    · simp only [List.map_cons, List.mem_cons] at h
      rcases h with h | h
      · exact absurd h.symm hp
      · simp only [List.map_cons, if_neg hp]
        simpa [objGet, hp] using ih h

/-- Reading the key just assigned yields the assigned value. -/
theorem objGet_objSet_self (deps : List (String × String)) (k v : String) :
    objGet (objSet deps k v) k = some v := by
  unfold objSet
  by_cases h : k ∈ deps.map Prod.fst
  · simpa [h] using objGet_replace_self deps k v h
  · simp only [h, if_false]
    induction deps with
    | nil => simp [objGet]
    | cons p ps ih =>
      simp only [List.map_cons, List.mem_cons, not_or] at h
      have hp : p.1 ≠ k := fun hk => h.1 hk.symm
      simpa [objGet, hp] using ih h.2

/-- Replacing one key's value leaves reads of other keys unchanged. -/
theorem objGet_replace_ne (deps : List (String × String)) (k v k' : String)
    (h : k' ≠ k) :
    objGet (deps.map fun p => if p.1 = k then (k, v) else p) k' = objGet deps k' := by
  induction deps with
  | nil => rfl
  | cons p ps ih =>
    by_cases hp : p.1 = k
    · have hp' : ¬((k, v).1 = k') := fun hkk => h hkk.symm
      have hpk : ¬(p.1 = k') := by
        rw [hp]
        exact fun hkk => h hkk.symm
      simp [objGet, hp, hp', hpk, ih]
    · by_cases hpk : p.1 = k'
      · simp [objGet, hp, hpk, h]
      · simp [objGet, hp, hpk, ih]

/-- Appending an entry for one key leaves reads of other keys
unchanged. -/
theorem objGet_append_single_ne (deps : List (String × String)) (k v k' : String)
    (h : k' ≠ k) : objGet (deps ++ [(k, v)]) k' = objGet deps k' := by
  induction deps with
  | nil =>
    have : ¬(k = k') := fun hkk => h hkk.symm
    simp [objGet, this]
  | cons p ps ih =>
    by_cases hpk : p.1 = k'
    · simp [objGet, hpk]
    · simp [objGet, hpk, ih]

/-- Assigning one key leaves reads of other keys unchanged. -/
theorem objGet_objSet_ne (deps : List (String × String)) (k v k' : String)
    (h : k' ≠ k) : objGet (objSet deps k v) k' = objGet deps k' := by
  unfold objSet
  by_cases hk : k ∈ deps.map Prod.fst
  · simpa [hk] using objGet_replace_ne deps k v k' h
  · simpa [hk] using objGet_append_single_ne deps k v k' h

/-- Repos outside the fold leave a key's read unchanged. -/
theorem configureOutcome_objGet_not_mem (env : Env) (rs : List WorkspaceRepo)
    (cfg : BowerConfig) (name : String)
    (h : name ∉ rs.map fun x => x.github.name) :
    objGet (configureOutcome env rs cfg).1.dependencies name
      = objGet cfg.dependencies name := by
  induction rs generalizing cfg with
  | nil => rfl
  | cons r rs ih =>
    simp only [List.map_cons, List.mem_cons, not_or] at h
    cases hr : env.getHeadSha r.dir with
    | ok sha =>
      simp only [configureOutcome, hr]
      rw [ih _ h.2]
      exact objGet_objSet_ne _ _ _ _ h.1
    | error e =>
      simp only [configureOutcome, hr]
      exact ih cfg h.2

/-- A surviving repo's entry in the final shared config is its own
location pinned to its exact head commit. -/
theorem configureOutcome_objGet (env : Env) (rs : List WorkspaceRepo)
    (cfg : BowerConfig) (r : WorkspaceRepo) (sha : String)
    (hmem : r ∈ rs) (hsha : env.getHeadSha r.dir = .ok sha)
    (hnames : (rs.map fun x => x.github.name).Nodup) :
    objGet (configureOutcome env rs cfg).1.dependencies r.github.name
      = some ("./" ++ r.github.name ++ "#" ++ sha) := by
  induction rs generalizing cfg with
  | nil => cases hmem
  | cons r0 rs ih =>
    simp only [List.map_cons, List.nodup_cons] at hnames
    rcases List.mem_cons.1 hmem with rfl | hmem'
    · simp only [configureOutcome, hsha]
      rw [configureOutcome_objGet_not_mem env rs _ _ hnames.1]
      exact objGet_objSet_self _ _ _
    · cases hr0 : env.getHeadSha r0.dir with
      | ok sha0 =>
        simp only [configureOutcome, hr0]
        exact ih _ hmem' hnames.2
      | error e =>
        simp only [configureOutcome, hr0]
        exact ih cfg hmem' hnames.2

/-! ### Pipeline shape lemmas -/

/-- Outcome component of a sequencing. -/
theorem andThen_snd {α β : Type} (x : M α) (f : α → M β) :
    (andThen x f).2 = match x.2 with
      | .error e => .error e
      | .ok a => (f a).2 := by
  unfold andThen
  cases x.2 <;> rfl

/-- Pure per-repo partition of the clone/update phase over a working
set. -/
def clonePhase (env : Env) (ws : List WorkspaceRepo) :
    BatchProcessResponse WorkspaceRepo Unit :=
  batchOutcome (cloneOrUpdateOp env) ws

/-- Pure per-repo partition of the configure phase over a working
set. -/
def configurePhase (env : Env) (ws : List WorkspaceRepo) :
    BatchProcessResponse WorkspaceRepo Unit :=
  (configureOutcome env ws (env.mergedBowerConfigs ws)).2

theorem cloneOrUpdateWorkspaceRepos_snd (env : Env) (ws : List WorkspaceRepo) :
    (cloneOrUpdateWorkspaceRepos env ws).2 = .ok (clonePhase env ws) := rfl

theorem configureBowerWorkspace_snd (env : Env) (dir : String)
    (ws : List WorkspaceRepo) :
    (configureBowerWorkspace env dir ws).2 = .ok (configurePhase env ws) := rfl

/-- Working set and ledger produced by a successful pre-install
pipeline, as functions of the resolution output: prepare narrows
nothing and records nothing, clone/update narrows to its successes
collecting its failures, configure narrows and collects again. -/
theorem initPreInstall_ok (env : Env) (s : WorkspaceState) (patterns : Patterns)
    (options : WorkspaceInitOptions) (ws : List WorkspaceRepo) (ledger : Ledger)
    (h : (initPreInstall env s patterns options).2 = .ok (ws, ledger)) :
    ∃ githubRepos,
      (determineGitHubRepos env patterns.includePatterns
          patterns.excludePatterns).2 = .ok githubRepos
      ∧ ws = ((configurePhase env
            ((clonePhase env (githubRepos.map (openWorkspaceRepo s.dir))).successes.map
              Prod.fst)).successes.map Prod.fst)
      ∧ ledger = collectFailures
          (collectFailures []
            (clonePhase env (githubRepos.map (openWorkspaceRepo s.dir))).failures)
          (configurePhase env
            ((clonePhase env (githubRepos.map (openWorkspaceRepo s.dir))).successes.map
              Prod.fst)).failures := by
  unfold initPreInstall at h
  cases hv : (initValidate env s).2 with
  | error e => simp [andThen_snd, hv] at h
  | ok u =>
    simp only [andThen_snd, hv] at h
    cases hd : (determineGitHubRepos env patterns.includePatterns
        patterns.excludePatterns).2 with
    | error e => simp [hd] at h
    | ok githubRepos =>
      simp only [hd] at h
      refine ⟨githubRepos, rfl, ?_⟩
      cases hp : (prepareWorkspaceFolders env s.dir
          (githubRepos.map (openWorkspaceRepo s.dir)) options).2 with
      | error e => simp [hp] at h
      | ok v =>
        simp only [hp, cloneOrUpdateWorkspaceRepos_snd,
          configureBowerWorkspace_snd, pureM, Except.ok.injEq,
          Prod.mk.injEq] at h
        obtain ⟨hws, hledger⟩ := h
        exact ⟨hws.symm, hledger.symm⟩

/-- A completed `init` ran the pre-install pipeline to success, and the
returned working set and ledger are its outputs; the final state records
the working set as initialized. -/
theorem init_eq_ok (env : Env) (s : WorkspaceState) (patterns : Patterns)
    (options : WorkspaceInitOptions) (s' : WorkspaceState) (tr : List Event)
    (out : InitOutput)
    (h : init env s patterns options = (s', tr, .ok out)) :
    (initPreInstall env s patterns options).2 = .ok (out.workspaceRepos, out.failures)
      ∧ env.bowerInstall s.dir = .ok ()
      ∧ s' = { s with initializedRepos := some out.workspaceRepos } := by
  unfold init at h
  cases hb : (initBody env s patterns options).2 with
  | error e => simp [hb] at h
  | ok p =>
    obtain ⟨ws, ledger⟩ := p
    simp only [hb, Prod.mk.injEq] at h
    obtain ⟨hs', htr, hout⟩ := h
    cases hout
    have hb' := hb
    unfold initBody at hb'
    simp only [andThen_snd, installWorkspaceDependencies, pureM] at hb'
    cases hpre : (initPreInstall env s patterns options).2 with
    | error e => simp [hpre] at hb'
    | ok q =>
      obtain ⟨ws', ledger'⟩ := q
      simp only [hpre] at hb'
      cases hbi : env.bowerInstall s.dir with
      | error e => simp [hbi] at hb'
      | ok u =>
        simp only [hbi, Except.ok.injEq, Prod.mk.injEq] at hb'
        obtain ⟨hw, hl⟩ := hb'
        refine ⟨?_, rfl, hs'.symm⟩
        rw [hw, hl]

/-- A failed `init` leaves the workspace state untouched. -/
theorem init_eq_error (env : Env) (s : WorkspaceState) (patterns : Patterns)
    (options : WorkspaceInitOptions) (s' : WorkspaceState) (tr : List Event)
    (e : JsError)
    (h : init env s patterns options = (s', tr, .error e)) : s' = s := by
  unfold init at h
  cases hb : (initBody env s patterns options).2 with
  | error e' =>
    simp only [hb, Prod.mk.injEq] at h
    exact h.1.symm
  | ok p =>
    obtain ⟨ws, ledger⟩ := p
    simp [hb] at h

/-- Calling `init` on an already-initialized workspace fails before any
collaborator call, with an unchanged state and an empty trace. -/
theorem init_already_initialized (env : Env) (s : WorkspaceState)
    (patterns : Patterns) (options : WorkspaceInitOptions)
    (h : isInitialized s = true) :
    init env s patterns options
      = (s, [], .error (.error "Workspace has already been initialized.")) := by
  have hv : initValidate env s
      = ([], .error (.error "Workspace has already been initialized.")) := by
    unfold initValidate
    rw [h]
    simp
  have hpre : initPreInstall env s patterns options
      = ([], .error (.error "Workspace has already been initialized.")) := by
    unfold initPreInstall
    rw [hv]
    rfl
  have hbody : initBody env s patterns options
      = ([], .error (.error "Workspace has already been initialized.")) := by
    unfold initBody
    rw [hpre]
    rfl
  unfold init
  rw [hbody]

/-! ### Concrete test fixtures -/

def refA : GitHubRepoReference := ⟨"org/a"⟩

def refB : GitHubRepoReference := ⟨"org/b"⟩

def refC : GitHubRepoReference := ⟨"org/c"⟩

def ghA : GitHubRepo := ⟨"a", "org/a", "urlA", "main", none⟩

def ghB : GitHubRepo := ⟨"b", "org/b", "urlB", "main", none⟩

def ghC : GitHubRepo := ⟨"c", "org/c", "urlC", "main", none⟩

def wsA : WorkspaceRepo := ⟨"/w/a", ghA⟩

def wsB : WorkspaceRepo := ⟨"/w/b", ghB⟩

def wsC : WorkspaceRepo := ⟨"/w/c", ghC⟩

def s0 : WorkspaceState := Workspace.construct "/w"

def pats0 : Patterns := ⟨["org/*"], []⟩

def opts0 : WorkspaceInitOptions := ⟨false, false⟩

/-- Environment in which every collaborator call succeeds: two repos
resolve, nothing is on disk yet, every git operation succeeds, and the
two repos report distinct head commits. -/
def baseEnv : Env where
  checkCommand _ := true
  expandRepoPatterns _ := [refA, refB]
  getRepoInfo r :=
    if r = refA then .ok ghA
    else if r = refB then .ok ghB
    else .error (.error "not found")
  existsSync d := decide (d = "/w")
  isGit _ := false
  rimraf _ := .ok ()
  mkdir _ := .ok ()
  gitFetch _ := .ok ()
  gitDestroy _ := .ok ()
  gitClone _ _ := .ok ()
  gitCheckout _ _ := .ok ()
  getHeadSha d :=
    if d = "/w/a" then .ok "sha-a"
    else if d = "/w/b" then .ok "sha-b"
    else .ok "sha-x"
  bowerInstall _ := .ok ()
  mergedBowerConfigs _ := ⟨[]⟩
  createBranch _ _ := .ok ⟨"", ""⟩
  commit _ _ := .ok ⟨"", ""⟩
  push _ _ _ := .ok ⟨"", ""⟩
  publish _ _ := .ok ⟨"", ""⟩

/-- Environment for resolution tests: three candidates, of which the
second one's metadata fetch fails. -/
def envResolve : Env :=
  { baseEnv with
    expandRepoPatterns := fun _ => [refA, refB, refC]
    getRepoInfo := fun r =>
      if r = refA then .ok ghA
      else if r = refC then .ok ghC
      else .error (.error "404") }

/-- Environment in which repo `b`'s folder exists without a git session
and removing it fails, so its prepare-phase cleanup task throws. -/
def envPrepFail : Env :=
  { baseEnv with
    existsSync := fun d => decide (d = "/w") || decide (d = "/w/b")
    rimraf := fun d =>
      if d = "/w/b" then .error (.error "EACCES: permission denied")
      else .ok () }

/-- Environment in which the workspace-wide bower install fails. -/
def envInstallFail : Env :=
  { baseEnv with bowerInstall := fun _ => .error (.error "bower install failed") }

/-- Environment with three resolved repos in which repo `a` fails its
clone and repo `c` fails its head-commit read. -/
def envMixed : Env :=
  { baseEnv with
    expandRepoPatterns := fun _ => [refA, refB, refC]
    getRepoInfo := fun r =>
      if r = refA then .ok ghA
      else if r = refB then .ok ghB
      else if r = refC then .ok ghC
      else .error (.error "not found")
    gitClone := fun d _ =>
      if d = "/w/a" then .error (.error "network error") else .ok ()
    getHeadSha := fun d =>
      if d = "/w/a" then .ok "sha-a"
      else if d = "/w/b" then .ok "sha-b"
      else .error (.error "git rev-parse failed") }

/-! ### Configure-phase membership lemmas -/

/-- A repo is a configure success exactly when its head-commit read
succeeds. -/
theorem mem_configure_successes_keys (env : Env) (rs : List WorkspaceRepo)
    (cfg : BowerConfig) (r : WorkspaceRepo) :
    r ∈ (configureOutcome env rs cfg).2.successes.map Prod.fst
      ↔ r ∈ rs ∧ ∃ sha, env.getHeadSha r.dir = .ok sha := by
  induction rs generalizing cfg with
  | nil => simp [configureOutcome]
  | cons r0 rs ih =>
    cases h0 : env.getHeadSha r0.dir with
    | ok sha0 =>
      simp only [configureOutcome, h0, List.map_cons, List.mem_cons, ih]
      constructor
      · rintro (rfl | ⟨hmem, hsha⟩)
        · exact ⟨Or.inl rfl, sha0, h0⟩
        · exact ⟨Or.inr hmem, hsha⟩
      · rintro ⟨rfl | hmem, hsha⟩
        · exact Or.inl rfl
        · exact Or.inr ⟨hmem, hsha⟩
    | error e0 =>
      simp only [configureOutcome, h0, List.mem_cons, ih]
      constructor
      · rintro ⟨hmem, hsha⟩
        exact ⟨Or.inr hmem, hsha⟩
      · rintro ⟨rfl | hmem, hsha⟩
        · obtain ⟨sha, hsha'⟩ := hsha
          rw [h0] at hsha'
          cases hsha'
        · exact ⟨hmem, hsha⟩

/-- An entry is a configure failure exactly when its repo's head-commit
read threw that error. -/
theorem mem_configure_failures (env : Env) (rs : List WorkspaceRepo)
    (cfg : BowerConfig) (r : WorkspaceRepo) (e : JsError) :
    (r, e) ∈ (configureOutcome env rs cfg).2.failures
      ↔ r ∈ rs ∧ env.getHeadSha r.dir = .error e := by
  rw [configureOutcome_failures, mem_filterMap_tag]
  constructor
  · rintro ⟨hmem, he⟩
    cases h : env.getHeadSha r.dir with
    | ok sha => simp [errOption, h] at he
    | error e' =>
      simp [errOption, h] at he
      exact ⟨hmem, by rw [he]⟩
  · rintro ⟨hmem, he⟩
    exact ⟨hmem, by simp [errOption, he]⟩

/-- A repo is a configure failure key exactly when its head-commit read
threw. -/
theorem mem_configure_failures_keys (env : Env) (rs : List WorkspaceRepo)
    (cfg : BowerConfig) (r : WorkspaceRepo) :
    r ∈ (configureOutcome env rs cfg).2.failures.map Prod.fst
      ↔ r ∈ rs ∧ ∃ e, env.getHeadSha r.dir = .error e := by
  rw [configureOutcome_failures, mem_filterMap_tag_keys]
  constructor
  · rintro ⟨hmem, e, he⟩
    cases h : env.getHeadSha r.dir with
    | ok sha => simp [errOption, h] at he
    | error e' => exact ⟨hmem, e', rfl⟩
  · rintro ⟨hmem, e, he⟩
    exact ⟨hmem, e, by simp [errOption, he]⟩

/-- Configure success keys form a sublist of the working set. -/
theorem configure_successes_keys_sublist (env : Env) (rs : List WorkspaceRepo)
    (cfg : BowerConfig) :
    ((configureOutcome env rs cfg).2.successes.map Prod.fst).Sublist rs := by
  induction rs generalizing cfg with
  | nil => simp [configureOutcome]
  | cons r0 rs ih =>
    cases h0 : env.getHeadSha r0.dir with
    | ok sha0 =>
      simp only [configureOutcome, h0, List.map_cons]
      exact (ih _).cons₂ r0
    | error e0 =>
      simp only [configureOutcome, h0]
      exact (ih cfg).cons r0

/-- Configure failure keys form a sublist of the working set. -/
theorem configure_failures_keys_sublist (env : Env) (rs : List WorkspaceRepo)
    (cfg : BowerConfig) :
    ((configureOutcome env rs cfg).2.failures.map Prod.fst).Sublist rs := by
  induction rs generalizing cfg with
  | nil => simp [configureOutcome]
  | cons r0 rs ih =>
    cases h0 : env.getHeadSha r0.dir with
    | ok sha0 =>
      simp only [configureOutcome, h0]
      exact (ih _).cons r0
    | error e0 =>
      simp only [configureOutcome, h0, List.map_cons]
      exact (ih cfg).cons₂ r0

/-! ### Further helpers for the claim theorems -/

/-- Triple-eta expansion of an `init` call. -/
theorem init_proj_eq (env : Env) (s : WorkspaceState) (patterns : Patterns)
    (options : WorkspaceInitOptions) :
    init env s patterns options
      = ((init env s patterns options).1, (init env s patterns options).2.1,
          (init env s patterns options).2.2) := rfl

/-- State and trace after an `init` whose body failed. -/
theorem init_body_error (env : Env) (s : WorkspaceState) (patterns : Patterns)
    (options : WorkspaceInitOptions) (e : JsError)
    (hb : (initBody env s patterns options).2 = .error e) :
    init env s patterns options
      = (s, (initBody env s patterns options).1, .error e) := by
  unfold init
  rw [hb]

/-- State after a successful first `init`: the working set is recorded
as initialized. -/
theorem init_ok_state (env : Env) (s : WorkspaceState) (patterns : Patterns)
    (options : WorkspaceInitOptions) (out : InitOutput)
    (hok : (init env s patterns options).2.2 = .ok out) :
    (init env s patterns options).1
      = { s with initializedRepos := some out.workspaceRepos } := by
  have hfull := init_proj_eq env s patterns options
  rw [hok] at hfull
  exact (init_eq_ok env s patterns options _ _ out hfull).2.2

/-! ### Claim theorems -/

/-- Claim C1 (code bug): the spec says an exclude list is lower-cased
and used to drop matching candidates, keeping the rest.  The code's
`excludes.map(String.prototype.toLowerCase)` (workspace.ts:101) passes
the built-in as a `map` callback, which invokes it with an `undefined`
receiver and throws a `TypeError` on the first element, so resolution
with the spec's scenario (candidates A, B, C; exclude list containing
B) throws instead of yielding `{A, C}`; an empty exclude list still
resolves. -/
theorem c1_exclude_filtering_throws :
    determineGitHubRepos envResolve ["org/*"] ["org/b"]
      = ([], .error (.typeError
          "String.prototype.toLowerCase called on null or undefined"))
    ∧ (determineGitHubRepos envResolve ["org/*"] []).2 = .ok [ghA, ghC] := by
  constructor
  · rfl
  · decide

/-- Claim C4: for every batch invocation with concurrency at least 1 the
success and failure mappings have disjoint key sets whose union is
exactly the input item set (one outcome per item), and an empty input
returns two empty mappings for every operation without invoking it. -/
theorem c4_batch_partition {T R : Type} (items : List T) (op : T → M R)
    (concurrency : Nat) (hc : 1 ≤ concurrency)
    (resp : BatchProcessResponse T R)
    (hresp : (batchProcess items op concurrency).2 = .ok resp) :
    (∀ t ∈ resp.successes.map Prod.fst, t ∉ resp.failures.map Prod.fst)
    ∧ (resp.successes.map Prod.fst ++ resp.failures.map Prod.fst).Perm items
    ∧ (items.Nodup → (resp.successes.map Prod.fst ++ resp.failures.map Prod.fst).Nodup)
    ∧ ∀ (op' : T → M R),
        batchProcess ([] : List T) op' concurrency = ([], .ok ⟨[], []⟩) := by
  have hr : resp = batchOutcome op items := by
    have := hresp
    unfold batchProcess at this
    exact (Except.ok.inj this).symm
  subst hr
  refine ⟨?_, ?_, ?_, ?_⟩
  · intro t ht
    exact batch_keys_disjoint op items t ht
  · exact batch_keys_perm op items
  · intro hnodup
    exact ((batch_keys_perm op items).nodup_iff).2 hnodup
  · intro op'
    rfl

/-- Operation used to exercise the batch executor: even numbers
succeed, odd numbers throw. -/
def c4Op (n : Nat) : M Nat :=
  ([], if n % 2 = 0 then .ok n else .error (.error "odd"))

/-- Concrete batch partition produced by `c4Op` on `[0, 1, 2]`. -/
def c4Resp : BatchProcessResponse Nat Nat :=
  ⟨[(0, 0), (2, 2)], [(1, .error "odd")]⟩

/-- Witness for C4 at a concrete batch run. -/
theorem c4_batch_partition_witness :
    (c4Resp.successes.map Prod.fst ++ c4Resp.failures.map Prod.fst).Perm [0, 1, 2]
    ∧ ((0 : Nat) ∈ c4Resp.successes.map Prod.fst →
        (0 : Nat) ∉ c4Resp.failures.map Prod.fst) := by
  have h := c4_batch_partition [0, 1, 2] c4Op 2 (by decide) c4Resp (by decide)
  exact ⟨h.2.1, h.1 0⟩

/-- Claim C8: calling `init` a second time on a workspace whose first
`init` completed successfully fails immediately with a thrown error,
performs no collaborator calls (empty trace: no command checks, no
pattern resolution, no filesystem mutation), and leaves the initialized
state unchanged. -/
theorem c8_double_init (env0 env : Env) (st0 : WorkspaceState)
    (patterns0 patterns : Patterns) (options0 options : WorkspaceInitOptions)
    (out : InitOutput)
    (hok : (init env0 st0 patterns0 options0).2.2 = .ok out) :
    init env (init env0 st0 patterns0 options0).1 patterns options
      = ((init env0 st0 patterns0 options0).1, [],
          .error (.error "Workspace has already been initialized.")) := by
  have hs1 := init_ok_state env0 st0 patterns0 options0 out hok
  have hinit : isInitialized (init env0 st0 patterns0 options0).1 = true := by
    rw [hs1]
    rfl
  exact init_already_initialized env _ patterns options hinit

/-- Witness for C8 at a concrete successful first initialization. -/
theorem c8_double_init_witness :
    init baseEnv (init baseEnv s0 pats0 opts0).1 pats0 opts0
      = ((init baseEnv s0 pats0 opts0).1, [],
          .error (.error "Workspace has already been initialized.")) :=
  c8_double_init baseEnv baseEnv s0 pats0 pats0 opts0 opts0
    ⟨[wsA, wsB], []⟩ (by decide)

/-- Claim C9: every post-init verb invoked before `init` has completed
fails immediately with the initialization-state error, returns the
state unchanged, and performs no collaborator calls (empty trace). -/
theorem c9_verbs_require_init (env : Env) (s : WorkspaceState)
    (h : isInitialized s = false) :
    (∀ repos fn concurrency,
        Workspace.run env s repos fn concurrency = (s, [], .error notInitializedError))
    ∧ (∀ repos newBranch,
        startNewBranch env s repos newBranch = (s, [], .error notInitializedError))
    ∧ (∀ repos message,
        commitChanges env s repos message = (s, [], .error notInitializedError))
    ∧ (∀ repos pushToBranch forcePush,
        pushChangesToGithub env s repos pushToBranch forcePush
          = (s, [], .error notInitializedError))
    ∧ (∀ repos distTag,
        publishPackagesToNpm env s repos distTag = (s, [], .error notInitializedError)) := by
  refine ⟨?_, ?_, ?_, ?_, ?_⟩
  · intro repos fn concurrency
    simp [Workspace.run, h]
  · intro repos newBranch
    simp [startNewBranch, h]
  · intro repos message
    simp [commitChanges, h]
  · intro repos pushToBranch forcePush
    simp [pushChangesToGithub, h]
  · intro repos distTag
    simp [publishPackagesToNpm, h]

/-- Witness for C9 on a freshly constructed workspace. -/
theorem c9_verbs_require_init_witness :
    Workspace.run baseEnv s0 [wsA] (fun _ => pureM ()) 1
      = (s0, [], .error notInitializedError)
    ∧ startNewBranch baseEnv s0 [wsA] "feature"
      = (s0, [], .error notInitializedError)
    ∧ commitChanges baseEnv s0 [wsA] "msg"
      = (s0, [], .error notInitializedError)
    ∧ pushChangesToGithub baseEnv s0 [wsA] none false
      = (s0, [], .error notInitializedError)
    ∧ publishPackagesToNpm baseEnv s0 [wsA] "latest"
      = (s0, [], .error notInitializedError) := by
  have h := c9_verbs_require_init baseEnv s0 rfl
  exact ⟨h.1 [wsA] (fun _ => pureM ()) 1, h.2.1 [wsA] "feature",
    h.2.2.1 [wsA] "msg", h.2.2.2.1 [wsA] none false,
    h.2.2.2.2 [wsA] "latest"⟩

/-- Claim C10: the initialized flag is monotonic — false at
construction, set exactly by a fully successful `init` (a failed `init`
leaves the state unchanged, in particular an already-initialized state
stays initialized), and no verb of the class ever changes the state. -/
theorem c10_initialized_monotonic :
    (∀ dir, isInitialized (Workspace.construct dir) = false)
    ∧ (∀ env s patterns options out,
        (init env s patterns options).2.2 = .ok out →
        isInitialized (init env s patterns options).1 = true)
    ∧ (∀ env s patterns options s' tr e,
        init env s patterns options = (s', tr, .error e) → s' = s)
    ∧ (∀ env s patterns options, isInitialized s = true →
        isInitialized (init env s patterns options).1 = true)
    ∧ (∀ env s repos fn concurrency, (Workspace.run env s repos fn concurrency).1 = s)
    ∧ (∀ env s repos newBranch, (startNewBranch env s repos newBranch).1 = s)
    ∧ (∀ env s repos message, (commitChanges env s repos message).1 = s)
    ∧ (∀ env s repos pushToBranch forcePush,
        (pushChangesToGithub env s repos pushToBranch forcePush).1 = s)
    ∧ (∀ env s repos distTag, (publishPackagesToNpm env s repos distTag).1 = s) := by
  refine ⟨fun dir => rfl, ?_, ?_, ?_, ?_, ?_, ?_, ?_, ?_⟩
  · intro env s patterns options out hok
    rw [init_ok_state env s patterns options out hok]
    rfl
  · intro env s patterns options s' tr e h
    exact init_eq_error env s patterns options s' tr e h
  · intro env s patterns options h
    rw [init_already_initialized env s patterns options h]
    exact h
  · intro env s repos fn concurrency
    unfold Workspace.run
    split <;> rfl
  · intro env s repos newBranch
    unfold startNewBranch
    split <;> rfl
  · intro env s repos message
    unfold commitChanges
    split <;> rfl
  · intro env s repos pushToBranch forcePush
    unfold pushChangesToGithub
    split <;> rfl
  · intro env s repos distTag
    unfold publishPackagesToNpm
    split <;> rfl

/-- Witness for C10 at concrete runs: a fresh workspace is
uninitialized, a successful `init` initializes it, and a verb leaves
the state unchanged. -/
theorem c10_initialized_monotonic_witness :
    isInitialized (Workspace.construct "/w") = false
    ∧ isInitialized (init baseEnv s0 pats0 opts0).1 = true
    ∧ (Workspace.run baseEnv s0 [wsA] (fun _ => pureM ()) 1).1 = s0 :=
  ⟨c10_initialized_monotonic.1 "/w",
   c10_initialized_monotonic.2.1 baseEnv s0 pats0 opts0 ⟨[wsA, wsB], []⟩ (by decide),
   c10_initialized_monotonic.2.2.2.2.1 baseEnv s0 [wsA] (fun _ => pureM ()) 1⟩

/-- A successful `init` ran the pre-install pipeline successfully. -/
theorem init_snd_ok (env : Env) (s : WorkspaceState) (patterns : Patterns)
    (options : WorkspaceInitOptions) (out : InitOutput)
    (hok : (init env s patterns options).2.2 = .ok out) :
    (initPreInstall env s patterns options).2
      = .ok (out.workspaceRepos, out.failures) := by
  have hfull := init_proj_eq env s patterns options
  rw [hok] at hfull
  exact (init_eq_ok env s patterns options _ _ out hfull).1

/-- Claim C6: when the workspace-wide dependency installation fails,
`init` surfaces a thrown error (the install error itself whenever the
pipeline reached the install phase), never returns a ledger, leaves the
state unchanged and uninitialized, and every post-init verb afterwards
still fails with the initialization-state error. -/
theorem c6_install_failure_fatal (env : Env) (s : WorkspaceState)
    (patterns : Patterns) (options : WorkspaceInitOptions) (e : JsError)
    (hfail : env.bowerInstall s.dir = .error e)
    (huninit : s.initializedRepos = none) :
    (∃ e', (init env s patterns options).2.2 = .error e')
    ∧ (init env s patterns options).1 = s
    ∧ isInitialized (init env s patterns options).1 = false
    ∧ (∀ ws ledger, (initPreInstall env s patterns options).2 = .ok (ws, ledger) →
        (init env s patterns options).2.2 = .error e)
    ∧ (∀ repos fn concurrency,
        Workspace.run env (init env s patterns options).1 repos fn concurrency
          = (s, [], .error notInitializedError))
    ∧ (∀ repos newBranch,
        startNewBranch env (init env s patterns options).1 repos newBranch
          = (s, [], .error notInitializedError))
    ∧ (∀ repos message,
        commitChanges env (init env s patterns options).1 repos message
          = (s, [], .error notInitializedError))
    ∧ (∀ repos pushToBranch forcePush,
        pushChangesToGithub env (init env s patterns options).1 repos pushToBranch forcePush
          = (s, [], .error notInitializedError))
    ∧ (∀ repos distTag,
        publishPackagesToNpm env (init env s patterns options).1 repos distTag
          = (s, [], .error notInitializedError)) := by
  have hsf : isInitialized s = false := by
    unfold isInitialized
    rw [huninit]
    rfl
  have hbody : ∃ e', (initBody env s patterns options).2 = .error e' := by
    cases hpre : (initPreInstall env s patterns options).2 with
    | error e0 =>
      refine ⟨e0, ?_⟩
      unfold initBody
      rw [andThen_snd, hpre]
    | ok p =>
      refine ⟨e, ?_⟩
      unfold initBody
      rw [andThen_snd, hpre]
      show (andThen (installWorkspaceDependencies env s.dir) fun _ => pureM p).2 = .error e
      rw [andThen_snd]
      simp [installWorkspaceDependencies, hfail]
  obtain ⟨e', hb⟩ := hbody
  have hinit := init_body_error env s patterns options e' hb
  have h1 : (init env s patterns options).1 = s := by rw [hinit]
  have h22 : (init env s patterns options).2.2 = .error e' := by rw [hinit]
  refine ⟨⟨e', h22⟩, h1, ?_, ?_, ?_, ?_, ?_, ?_, ?_⟩
  · rw [h1]
    exact hsf
  · intro ws ledger hpre
    have hb2 : (initBody env s patterns options).2 = .error e := by
      unfold initBody
      rw [andThen_snd, hpre]
      show (andThen (installWorkspaceDependencies env s.dir) fun _ =>
        pureM (ws, ledger)).2 = .error e
      rw [andThen_snd]
      simp [installWorkspaceDependencies, hfail]
    rw [init_body_error env s patterns options e hb2]
  · intro repos fn concurrency
    rw [h1]
    simp [Workspace.run, hsf]
  · intro repos newBranch
    rw [h1]
    simp [startNewBranch, hsf]
  · intro repos message
    rw [h1]
    simp [commitChanges, hsf]
  · intro repos pushToBranch forcePush
    rw [h1]
    simp [pushChangesToGithub, hsf]
  · intro repos distTag
    rw [h1]
    simp [publishPackagesToNpm, hsf]

/-- Witness for C6 at a concrete failing installation. -/
theorem c6_install_failure_fatal_witness :
    (∃ e', (init envInstallFail s0 pats0 opts0).2.2 = .error e')
    ∧ (init envInstallFail s0 pats0 opts0).1 = s0
    ∧ isInitialized (init envInstallFail s0 pats0 opts0).1 = false := by
  have h := c6_install_failure_fatal envInstallFail s0 pats0 opts0
    (.error "bower install failed") (by decide) rfl
  exact ⟨h.1, h.2.1, h.2.2.1⟩

/-- Claim C5: the configure phase writes the merged manifest to disk
only after the whole per-repo batch (all head-commit reads), and in the
persisted manifest every surviving repo's package name is pinned to the
repo's own location at its exact head commit — concurrent distinct
commits for different repos all appear (no lost update); moreover a
repo survives this phase exactly when its head-commit read succeeded. -/
theorem c5_manifest_pinning (env : Env) (dir : String)
    (repos : List WorkspaceRepo)
    (hnames : (repos.map fun r => r.github.name).Nodup)
    (resp : BatchProcessResponse WorkspaceRepo Unit)
    (hresp : (configureBowerWorkspace env dir repos).2 = .ok resp) :
    (configureBowerWorkspace env dir repos).1
        = Event.writeFile (dir ++ "/.bowerrc") bowerrcContent
            :: (repos.map fun r => Event.gitGetHeadSha r.dir)
            ++ [Event.writeBowerJson (dir ++ "/bower.json")
                  (configureOutcome env repos (env.mergedBowerConfigs repos)).1]
    ∧ (∀ r ∈ repos, ∀ sha, env.getHeadSha r.dir = .ok sha →
        r ∈ resp.successes.map Prod.fst
        ∧ objGet (configureOutcome env repos
              (env.mergedBowerConfigs repos)).1.dependencies r.github.name
            = some ("./" ++ r.github.name ++ "#" ++ sha))
    ∧ (∀ r ∈ resp.successes.map Prod.fst, ∃ sha, env.getHeadSha r.dir = .ok sha) := by
  have hr : resp = configurePhase env repos := by
    rw [configureBowerWorkspace_snd] at hresp
    exact (Except.ok.inj hresp).symm
  subst hr
  refine ⟨rfl, ?_, ?_⟩
  · intro r hmem sha hsha
    constructor
    · exact (mem_configure_successes_keys env repos _ r).2 ⟨hmem, sha, hsha⟩
    · exact configureOutcome_objGet env repos _ r sha hmem hsha hnames
  · intro r hr
    exact ((mem_configure_successes_keys env repos _ r).1 hr).2

/-- Concrete configure-phase partition for the C5 witness. -/
def c5Resp : BatchProcessResponse WorkspaceRepo Unit :=
  ⟨[(wsA, ()), (wsB, ())], []⟩

/-- Witness for C5: two repos with distinct head commits both end up
pinned in the final persisted manifest. -/
theorem c5_manifest_pinning_witness :
    (wsA ∈ c5Resp.successes.map Prod.fst
      ∧ objGet (configureOutcome baseEnv [wsA, wsB]
            (baseEnv.mergedBowerConfigs [wsA, wsB])).1.dependencies wsA.github.name
          = some ("./" ++ wsA.github.name ++ "#" ++ "sha-a"))
    ∧ (wsB ∈ c5Resp.successes.map Prod.fst
      ∧ objGet (configureOutcome baseEnv [wsA, wsB]
            (baseEnv.mergedBowerConfigs [wsA, wsB])).1.dependencies wsB.github.name
          = some ("./" ++ wsB.github.name ++ "#" ++ "sha-b")) := by
  have h := c5_manifest_pinning baseEnv "/w" [wsA, wsB] (by decide) c5Resp (by decide)
  exact ⟨h.2.1 wsA (by decide) "sha-a" (by decide),
    h.2.1 wsB (by decide) "sha-b" (by decide)⟩

/-- Claim C3: across the per-repo phases of `init` (clone/update, then
configure — prepare never narrows), each working set is a sublist
(neither reordered nor duplicated) of the previous one; every repo
eliminated between phases appears in the final ledger; ledger keys only
grow; each repo appears in the ledger at most once; and each ledger
entry is keyed to the phase that eliminated its repo (an entry from the
configure phase is for a repo that survived the clone phase). -/
theorem c3_narrowing_ledger (env : Env) (dir : String)
    (ws0 : List WorkspaceRepo) (h0 : ws0.Nodup)
    (r1 resp2 : BatchProcessResponse WorkspaceRepo Unit)
    (ws1 ws2 : List WorkspaceRepo) (ledger1 ledger2 : Ledger)
    (h1 : (cloneOrUpdateWorkspaceRepos env ws0).2 = .ok r1)
    (hws1 : ws1 = r1.successes.map Prod.fst)
    (hl1 : ledger1 = collectFailures [] r1.failures)
    (h2 : (configureBowerWorkspace env dir ws1).2 = .ok resp2)
    (hws2 : ws2 = resp2.successes.map Prod.fst)
    (hl2 : ledger2 = collectFailures ledger1 resp2.failures) :
    ws1.Sublist ws0
    ∧ ws2.Sublist ws1
    ∧ (∀ r ∈ ws0, r ∉ ws1 → ∃ e, (r, e) ∈ ledger2)
    ∧ (∀ r ∈ ws1, r ∉ ws2 → ∃ e, (r, e) ∈ ledger2)
    ∧ (∀ k ∈ ledgerKeys ledger1, k ∈ ledgerKeys ledger2)
    ∧ (ledgerKeys ledger2).Nodup
    ∧ (∀ r e, (r, e) ∈ ledger2 →
        ((r, e) ∈ r1.failures ∧ r ∉ ws1)
        ∨ ((r, e) ∈ resp2.failures ∧ r ∈ ws1 ∧ r ∉ r1.failures.map Prod.fst)) := by
  have hr1 : r1 = clonePhase env ws0 := by
    rw [cloneOrUpdateWorkspaceRepos_snd] at h1
    exact (Except.ok.inj h1).symm
  have hr2 : resp2 = configurePhase env ws1 := by
    rw [configureBowerWorkspace_snd] at h2
    exact (Except.ok.inj h2).symm
  subst hr1 hr2 hws1 hws2 hl1 hl2
  have hsub1 : ((clonePhase env ws0).successes.map Prod.fst).Sublist ws0 :=
    batch_successes_keys_sublist (cloneOrUpdateOp env) ws0
  have hfsub1 : ((clonePhase env ws0).failures.map Prod.fst).Sublist ws0 :=
    batch_failures_keys_sublist (cloneOrUpdateOp env) ws0
  have hws1nodup : ((clonePhase env ws0).successes.map Prod.fst).Nodup :=
    h0.sublist hsub1
  have hf1nodup : ((clonePhase env ws0).failures.map Prod.fst).Nodup :=
    h0.sublist hfsub1
  have hsub2 : ((configurePhase env
        ((clonePhase env ws0).successes.map Prod.fst)).successes.map Prod.fst).Sublist
      ((clonePhase env ws0).successes.map Prod.fst) :=
    configure_successes_keys_sublist env _ _
  have hfsub2 : ((configurePhase env
        ((clonePhase env ws0).successes.map Prod.fst)).failures.map Prod.fst).Sublist
      ((clonePhase env ws0).successes.map Prod.fst) :=
    configure_failures_keys_sublist env _ _
  have hf2nodup : ((configurePhase env
        ((clonePhase env ws0).successes.map Prod.fst)).failures.map Prod.fst).Nodup :=
    hws1nodup.sublist hfsub2
  have hl1eq : collectFailures [] (clonePhase env ws0).failures
      = (clonePhase env ws0).failures := by
    have := collectFailures_disjoint [] (clonePhase env ws0).failures
      (by intro k hk; simp [ledgerKeys]) hf1nodup
    simpa using this
  have hdisj12 : ∀ k ∈ (configurePhase env
        ((clonePhase env ws0).successes.map Prod.fst)).failures.map Prod.fst,
      k ∉ ledgerKeys (collectFailures [] (clonePhase env ws0).failures) := by
    intro k hk
    rw [hl1eq]
    have hkws1 : k ∈ (clonePhase env ws0).successes.map Prod.fst :=
      hfsub2.subset hk
    exact batch_keys_disjoint (cloneOrUpdateOp env) ws0 k hkws1
  have hl2eq : collectFailures (collectFailures [] (clonePhase env ws0).failures)
        (configurePhase env ((clonePhase env ws0).successes.map Prod.fst)).failures
      = collectFailures [] (clonePhase env ws0).failures
          ++ (configurePhase env ((clonePhase env ws0).successes.map Prod.fst)).failures :=
    collectFailures_disjoint _ _ hdisj12 hf2nodup
  refine ⟨hsub1, hsub2, ?_, ?_, ?_, ?_, ?_⟩
  · intro r hr0 hr1
    have hin : r ∈ (clonePhase env ws0).successes.map Prod.fst
        ++ (clonePhase env ws0).failures.map Prod.fst :=
      (batch_keys_perm (cloneOrUpdateOp env) ws0).mem_iff.2 hr0
    rcases List.mem_append.1 hin with h | h
    · exact absurd h hr1
    · obtain ⟨⟨r', e⟩, hmem, hfst⟩ := List.mem_map.1 h
      cases hfst
      refine ⟨e, ?_⟩
      rw [hl2eq, hl1eq]
      exact List.mem_append_left _ hmem
  · intro r hr1 hr2
    cases hsha : env.getHeadSha r.dir with
    | ok sha =>
      exact absurd ((mem_configure_successes_keys env _ _ r).2 ⟨hr1, sha, hsha⟩) hr2
    | error e =>
      refine ⟨e, ?_⟩
      rw [hl2eq]
      exact List.mem_append_right _ ((mem_configure_failures env _ _ r e).2 ⟨hr1, hsha⟩)
  · intro k hk
    rw [mem_ledgerKeys_collectFailures]
    exact Or.inl hk
  · exact collectFailures_keys_nodup _ _
      (collectFailures_keys_nodup [] _ (by simp [ledgerKeys]))
  · intro r e hmem
    rw [hl2eq, hl1eq] at hmem
    rcases List.mem_append.1 hmem with h | h
    · refine Or.inl ⟨h, ?_⟩
      intro hrws1
      have : r ∈ (clonePhase env ws0).failures.map Prod.fst :=
        List.mem_map.2 ⟨(r, e), h, rfl⟩
      exact batch_keys_disjoint (cloneOrUpdateOp env) ws0 r hrws1 this
    · obtain ⟨hr1mem, -⟩ := (mem_configure_failures env _ _ r e).1 h
      refine Or.inr ⟨h, hr1mem, ?_⟩
      intro hrf1
      exact batch_keys_disjoint (cloneOrUpdateOp env) ws0 r hr1mem hrf1

/-- Clone-phase partition of the C3 witness run. -/
def c3R1 : BatchProcessResponse WorkspaceRepo Unit :=
  ⟨[(wsB, ()), (wsC, ())], [(wsA, .error "network error")]⟩

/-- Configure-phase partition of the C3 witness run. -/
def c3R2 : BatchProcessResponse WorkspaceRepo Unit :=
  ⟨[(wsB, ())], [(wsC, .error "git rev-parse failed")]⟩

/-- Final ledger of the C3 witness run. -/
def c3Ledger2 : Ledger :=
  [(wsA, .error "network error"), (wsC, .error "git rev-parse failed")]

/-- Witness for C3 at a concrete run: repo `a` fails clone, repo `c`
fails configure, repo `b` survives. -/
theorem c3_narrowing_ledger_witness :
    ([wsB, wsC] : List WorkspaceRepo).Sublist [wsA, wsB, wsC]
    ∧ ([wsB] : List WorkspaceRepo).Sublist [wsB, wsC]
    ∧ (ledgerKeys c3Ledger2).Nodup
    ∧ (∃ e, (wsA, e) ∈ c3Ledger2)
    ∧ (∃ e, (wsC, e) ∈ c3Ledger2) := by
  have h := c3_narrowing_ledger envMixed "/w" [wsA, wsB, wsC] (by decide)
    c3R1 c3R2 [wsB, wsC] [wsB] [(wsA, .error "network error")] c3Ledger2
    (by decide) (by decide) (by decide) (by decide) (by decide) (by decide)
  exact ⟨h.1, h.2.1, h.2.2.2.2.2.1, h.2.2.1 wsA (by decide) (by decide),
    h.2.2.2.1 wsC (by decide) (by decide)⟩

/-- Counterexample to claim C2: repo `b`'s prepare-folders cleanup task
throws (`rimraf` fails on its stale folder), yet `init` completes with
`b` still in the final working set and an empty failure ledger — the
prepare-phase error reaches neither the ledger nor the narrowing. -/
theorem c2_counterexample :
    (prepareRepoOp envPrepFail opts0 wsB).2
        = .error (.error "EACCES: permission denied")
    ∧ (init envPrepFail s0 pats0 opts0).2.2 = .ok ⟨[wsA, wsB], []⟩ := by
  exact ⟨by decide, by decide⟩

/-- Claim C2 as amended: a repo whose prepare-folders cleanup task
throws has its error captured inside that phase's batch result, but
`init` discards that result, so if the repo's clone and head-commit
read succeed it remains in the final working set and never appears in
the failure ledger returned by `init`. -/
theorem c2_amended_prepare_failures_dropped (env : Env) (s : WorkspaceState)
    (patterns : Patterns) (options : WorkspaceInitOptions) (out : InitOutput)
    (githubRepos : List GitHubRepo) (r : WorkspaceRepo) (e : JsError)
    (sha : String)
    (hinit : (init env s patterns options).2.2 = .ok out)
    (hdet : (determineGitHubRepos env patterns.includePatterns
        patterns.excludePatterns).2 = .ok githubRepos)
    (hmem : r ∈ githubRepos.map (openWorkspaceRepo s.dir))
    (hprep : (prepareRepoOp env options r).2 = .error e)
    (hclone : (cloneOrUpdateOp env r).2 = .ok ())
    (hsha : env.getHeadSha r.dir = .ok sha) :
    (r, e) ∈ (batchOutcome (prepareRepoOp env options)
        (githubRepos.map (openWorkspaceRepo s.dir))).failures
    ∧ r ∈ out.workspaceRepos
    ∧ r ∉ ledgerKeys out.failures := by
  have hpre := init_snd_ok env s patterns options out hinit
  obtain ⟨gh', hdet', hws, hledger⟩ :=
    initPreInstall_ok env s patterns options _ _ hpre
  have hgh : gh' = githubRepos := by
    rw [hdet'] at hdet
    exact Except.ok.inj hdet
  rw [hgh] at hws hledger
  have hrws1 : r ∈ (clonePhase env
      (githubRepos.map (openWorkspaceRepo s.dir))).successes.map Prod.fst :=
    (mem_batch_successes_keys (cloneOrUpdateOp env) _ r).2 ⟨hmem, (), hclone⟩
  refine ⟨(mem_batch_failures (prepareRepoOp env options) _ r e).2 ⟨hmem, hprep⟩,
    ?_, ?_⟩
  · rw [hws]
    exact (mem_configure_successes_keys env _ _ r).2 ⟨hrws1, sha, hsha⟩
  · rw [hledger]
    intro hk
    rw [mem_ledgerKeys_collectFailures, mem_ledgerKeys_collectFailures] at hk
    rcases hk with (hk | hk) | hk
    · simp [ledgerKeys] at hk
    · obtain ⟨-, e', he'⟩ := (mem_batch_failures_keys (cloneOrUpdateOp env) _ r).1 hk
      rw [hclone] at he'
      cases he'
    · obtain ⟨-, e', he'⟩ := (mem_configure_failures_keys env _ _ r).1 hk
      rw [hsha] at he'
      cases he'

/-- Witness for the amended C2 at the concrete failing-prepare run. -/
theorem c2_amended_witness :
    (wsB, JsError.error "EACCES: permission denied")
        ∈ (batchOutcome (prepareRepoOp envPrepFail opts0)
            ([ghA, ghB].map (openWorkspaceRepo s0.dir))).failures
    ∧ wsB ∈ (InitOutput.mk [wsA, wsB] []).workspaceRepos
    ∧ wsB ∉ ledgerKeys (InitOutput.mk [wsA, wsB] []).failures :=
  c2_amended_prepare_failures_dropped envPrepFail s0 pats0 opts0
    ⟨[wsA, wsB], []⟩ [ghA, ghB] wsB (.error "EACCES: permission denied") "sha-b"
    (by decide) (by decide) (by decide) (by decide) (by decide) (by decide)

/-- Patterns-resolution output of `determineGitHubRepos` when the
exclude list is empty: all candidates are fetched, failed fetches are
logged and dropped, the successfully fetched metadata is returned. -/
theorem determine_no_excludes (env : Env) (pats : List String) :
    determineGitHubRepos env pats []
      = (Event.expandPatterns pats
          :: ((env.expandRepoPatterns pats).map fun r => Event.getRepoInfo r.fullName)
          ++ (env.expandRepoPatterns pats).filterMap (fun r =>
              match env.getRepoInfo r with
              | .ok _ => none
              | .error e => some (.log ("Repo not found: " ++ r.fullName ++ " ("
                  ++ e.message ++ ")"))),
        .ok ((env.expandRepoPatterns pats).filterMap fun r =>
          (env.getRepoInfo r).toOption)) := by
  unfold determineGitHubRepos mapProtoToLowerCase
  simp [List.filter_true]

/-- Claim C7: a candidate whose metadata fetch fails does not abort
resolution — the call still succeeds, returning exactly the candidates
whose fetch succeeded (so every returned repo stems from a successful
fetch, and the failed candidate contributes nothing), the drop is
logged; and in any completed `init` every failure-ledger key is a
workspace repo opened from a successfully fetched candidate, so the
dropped candidate appears neither in the initial working set nor in
the ledger. -/
theorem c7_metadata_failure_isolated (env : Env) (pats : List String)
    (c : GitHubRepoReference) (e : JsError)
    (hc : c ∈ env.expandRepoPatterns pats)
    (hfail : env.getRepoInfo c = .error e) :
    ((determineGitHubRepos env pats []).2
        = .ok ((env.expandRepoPatterns pats).filterMap fun r =>
            (env.getRepoInfo r).toOption))
    ∧ (∀ repos, (determineGitHubRepos env pats []).2 = .ok repos →
        ∀ g ∈ repos, ∃ ref ∈ env.expandRepoPatterns pats,
          env.getRepoInfo ref = .ok g)
    ∧ Event.log ("Repo not found: " ++ c.fullName ++ " (" ++ e.message ++ ")")
        ∈ (determineGitHubRepos env pats []).1
    ∧ (∀ (s : WorkspaceState) (options : WorkspaceInitOptions) (out : InitOutput),
        (init env s ⟨pats, []⟩ options).2.2 = .ok out →
        ∀ p ∈ out.failures, ∃ g,
          g ∈ ((env.expandRepoPatterns pats).filterMap fun r =>
            (env.getRepoInfo r).toOption)
          ∧ p.1 = openWorkspaceRepo s.dir g) := by
  have hdet := determine_no_excludes env pats
  refine ⟨?_, ?_, ?_, ?_⟩
  · rw [hdet]
  · intro repos hrepos g hg
    rw [hdet] at hrepos
    have : repos = (env.expandRepoPatterns pats).filterMap fun r =>
        (env.getRepoInfo r).toOption := (Except.ok.inj hrepos).symm
    subst this
    obtain ⟨ref, href, hok⟩ := List.mem_filterMap.1 hg
    refine ⟨ref, href, ?_⟩
    cases h : env.getRepoInfo ref with
    | ok g' =>
      rw [h] at hok
      simp [Except.toOption] at hok
      rw [hok]
    | error e' =>
      rw [h] at hok
      simp [Except.toOption] at hok
  · rw [hdet]
    refine List.mem_cons_of_mem _ (List.mem_append_right _ ?_)
    exact List.mem_filterMap.2 ⟨c, hc, by rw [hfail]⟩
  · intro s options out hok p hp
    have hpre := init_snd_ok env s ⟨pats, []⟩ options out hok
    obtain ⟨gh', hdet', hws, hledger⟩ :=
      initPreInstall_ok env s ⟨pats, []⟩ options _ _ hpre
    have hgh : gh' = (env.expandRepoPatterns pats).filterMap fun r =>
        (env.getRepoInfo r).toOption := by
      rw [hdet] at hdet'
      exact (Except.ok.inj hdet').symm
    have hkey : p.1 ∈ ledgerKeys out.failures :=
      List.mem_map.2 ⟨p, hp, rfl⟩
    rw [hledger, mem_ledgerKeys_collectFailures,
      mem_ledgerKeys_collectFailures] at hkey
    have hin0 : p.1 ∈ gh'.map (openWorkspaceRepo s.dir) := by
      rcases hkey with (hk | hk) | hk
      · simp [ledgerKeys] at hk
      · exact (batch_failures_keys_sublist (cloneOrUpdateOp env) _).subset hk
      · exact (batch_successes_keys_sublist (cloneOrUpdateOp env) _).subset
          ((configure_failures_keys_sublist env _ _).subset hk)
    obtain ⟨g, hg, hopen⟩ := List.mem_map.1 hin0
    rw [hgh] at hg
    exact ⟨g, hg, hopen.symm⟩

/-- Witness for C7: candidate `org/b`'s fetch fails; resolution still
succeeds with the other candidates and logs the drop. -/
theorem c7_metadata_failure_isolated_witness :
    ((determineGitHubRepos envResolve ["org/*"] []).2
        = .ok ((envResolve.expandRepoPatterns ["org/*"]).filterMap fun r =>
            (envResolve.getRepoInfo r).toOption))
    ∧ Event.log ("Repo not found: " ++ refB.fullName ++ " ("
          ++ (JsError.error "404").message ++ ")")
        ∈ (determineGitHubRepos envResolve ["org/*"] []).1 := by
  have h := c7_metadata_failure_isolated envResolve ["org/*"] refB
    (.error "404") (by decide) (by decide)
  exact ⟨h.1, h.2.2.1⟩

end PolymerWorkspace
